import Mathlib

/-!
The yes/no confirmation prompt of `survey/confirm.go`.

A shallow embedding of `src/confirm.go` (package `survey`) and the proofs of its
specification.  The Go file is small; what it leans on lives outside it:

* `regexp` (Go standard library): modelled by `Regexp`, a matcher for the
  operators that the two patterns use;
* `fmt.Sprintf` (Go standard library): modelled by `Sprintf`, the verb scanner
  of `fmt` run with an empty operand list;
* `readline.Instance`, `ansi.*` (terminal collaborators): modelled by `World`,
  a script of pending `Readline` outcomes plus the chronological trace of every
  effect performed;
* `core.RunTemplate`, `errorTemplate`, `%q` quoting: taken as the parameters
  `Env.RunTemplate`, `Env.errorTemplate`, `Env.Quote`; `execTemplate` models the
  template engine for the question template;
* the ANSI terminal behind `ansi.*`: modelled by `Screen`, the rows of cells
  shown and the cursor, on which the control sequences act.
-/

namespace Survey

/-! ## Go values -/

/-- A Go `error` value that is not nil; `Option Error` is a Go `error`. -/
structure Error where
  msg : String
deriving DecidableEq, Repr

/-- The error `io.EOF`, which `Readline` returns once its input is closed. -/
def EOF : Error := ⟨"EOF"⟩

/-! ## `regexp`: the operators used by `yesRx` and `noRx` -/

/-- The runes `unicode.SimpleFold` sends to the next member of their case orbit.
It agrees with Go on every ASCII rune and on the two other runes whose orbit holds
an ASCII letter: `k → U+212A → K → k` and `s → U+017F → S → s`.  Every other
rune is left fixed; no orbit walked below reaches one. -/
def SimpleFold (r : Char) : Char :=
  if r = 'k' then Char.ofNat 0x212A
  else if r = Char.ofNat 0x212A then 'K'
  else if r = 's' then Char.ofNat 0x17F
  else if r = Char.ofNat 0x17F then 'S'
  else if r.isUpper then Char.ofNat (r.toNat + 32)
  else if r.isLower then Char.ofNat (r.toNat - 32)
  else r

/-- The walk `for r1 := SimpleFold(r0); r1 != r0; r1 = SimpleFold(r1)` of
`regexp/syntax.(*Inst).MatchRunePos`, as the list of runes it visits. -/
def foldOrbit (r0 : Char) : Nat → Char → List Char
  | 0, _ => []
  | n + 1, r1 => if r1 = r0 then [] else r1 :: foldOrbit r0 n (SimpleFold r1)

/-- Does rune `r` match the literal `r0`?  With the flag `(?i)` every rune of the
case orbit of `r0` matches (an orbit has at most four runes). -/
def matchRune (r0 : Char) (foldCase : Bool) (r : Char) : Bool :=
  r == r0 || (foldCase && (foldOrbit r0 4 (SimpleFold r0)).contains r)

/-- Parsed regular expressions, restricted to the operators in `confirm.go`. -/
inductive Regexp where
  /-- `^` without the flag `m`: the beginning of the text. -/
  | beginText
  /-- `$` without the flag `m`: the end of the text (a final newline is text). -/
  | endText
  /-- One rune; `foldCase` is set inside `(?i: )`. -/
  | literal (r : Char) (foldCase : Bool)
  /-- Concatenation. -/
  | concat (a b : Regexp)
  /-- The operator `?`. -/
  | quest (a : Regexp)
deriving Repr

/-- All ways in which `re` can match a prefix of the rest of the text.  A position
is `(atStart, rest)`: whether it is the beginning of the text, and the runes that
follow it. -/
def Regexp.run : Regexp → Bool × List Char → List (Bool × List Char)
  | .beginText, (atStart, s) => if atStart then [(atStart, s)] else []
  | .endText, (atStart, s) => if s.isEmpty then [(atStart, s)] else []
  | .literal _ _, (_, []) => []
  | .literal r0 foldCase, (_, r :: s) => if matchRune r0 foldCase r then [(false, s)] else []
  | .concat a b, p => (a.run p).flatMap b.run
  | .quest a, p => a.run p ++ [p]

/-- Is there a match that starts at this position or at a later one? -/
def Regexp.search (re : Regexp) : Bool → List Char → Bool
  | atStart, [] => !(re.run (atStart, [])).isEmpty
  | atStart, r :: s => !(re.run (atStart, r :: s)).isEmpty || re.search false s

/-- The method `(*Regexp).Match`: does the text contain any match of `re`? -/
def Regexp.Match (re : Regexp) (b : String) : Bool :=
  re.search true b.data

/-- The pattern `^(?i:y(?:es)?)$`. -/
def yesRx : Regexp :=
  .concat .beginText
    (.concat (.concat (.literal 'y' true) (.quest (.concat (.literal 'e' true) (.literal 's' true))))
      .endText)

/-- The pattern `^(?i:n(?:o)?)$`. -/
def noRx : Regexp :=
  .concat .beginText
    (.concat (.concat (.literal 'n' true) (.quest (.literal 'o' true)))
      .endText)

/-! ## `fmt.Sprintf` with no operands -/

/-- The flag characters that may follow `%`. -/
def isFlag (c : Char) : Bool :=
  c == '#' || c == '0' || c == '+' || c == '-' || c == ' '

/-- The function `parsenum` of `fmt`: read a decimal number.  The result is whether
a number was read and the format left after it; a number above `1e6` is given up
and swallows the rest of the format. -/
def parsenum : Nat → Bool → List Char → Bool × List Char
  | _, isnum, [] => (isnum, [])
  | num, isnum, c :: s =>
    if c.isDigit then
      if num > 1000000 then (false, []) else parsenum (num * 10 + (c.toNat - 48)) true s
    else (isnum, c :: s)

/-- The method `argNumber` of `fmt` when there is no operand: skip an argument
index `[n]`.  The result is the format left, whether a well-formed index was found,
and whether an opening bracket was seen (no index is in range, so any bracket makes
the argument number bad). -/
def argNumber (s : List Char) : List Char × Bool × Bool :=
  match s with
  | '[' :: body =>
    if s.length < 3 then (body, false, true)
    else
      match body.dropWhile (fun c => c != ']') with
      | [] => (body, false, true)
      | _ :: rest =>
        (rest, parsenum 0 false (body.takeWhile (fun c => c != ']')) == (true, []), true)
  | _ => (s, false, false)

/-- The width of a verb.  A `*` asks for an operand, of which there is none, and
writes `%!(BADWIDTH)`; otherwise a number is read.  The result is the text written,
the format left, and whether an argument index still stands just before. -/
def verbWidth (s : List Char) (afterIndex : Bool) : List Char × List Char × Bool :=
  match s with
  | '*' :: t => ("%!(BADWIDTH)".data, t, false)
  | _ => ([], (parsenum 0 false s).2, afterIndex)

/-- The precision of a verb, which a `.` opens when at least one more character
follows it (a `.` that ends the format is left to be the verb): an argument index
may follow the dot, then a `*`, which writes `%!(BADPREC)`, or a number.  The result
is the text written, the format left, whether an argument index stands just before,
and whether a bracket was seen. -/
def verbPrec (s : List Char) (afterIndex : Bool) : List Char × List Char × Bool × Bool :=
  match s with
  | '.' :: c :: t =>
    match (argNumber (c :: t)).1 with
    | '*' :: t2 => ("%!(BADPREC)".data, t2, false, (argNumber (c :: t)).2.2)
    | _ =>
      ([], (parsenum 0 false (argNumber (c :: t)).1).2, (argNumber (c :: t)).2.1,
        (argNumber (c :: t)).2.2)
  | _ => ([], s, afterIndex, false)

/-- The verb character itself: `%%` writes a percent sign; any other verb has no
operand to print, and writes `%!v(BADINDEX)` after a bracket and `%!v(MISSING)`
otherwise; a format that ends before the verb writes `%!(NOVERB)`. -/
def verbEnd (s : List Char) (bad : Bool) : List Char × List Char :=
  match s with
  | [] => ("%!(NOVERB)".data, [])
  | verb :: rest =>
    if verb = '%' then (['%'], rest)
    else if bad then ("%!".data ++ [verb] ++ "(BADINDEX)".data, rest)
    else ("%!".data ++ [verb] ++ "(MISSING)".data, rest)

/-- One verb of `doPrintf`, entered just after its `%`, with no operand left: flags,
argument index, width, precision, argument index again unless one was just read,
and the verb.  The result is the text written and the format that follows. -/
def doVerb (s : List Char) : List Char × List Char :=
  let idx := argNumber (s.dropWhile isFlag)
  let wid := verbWidth idx.1 idx.2.1
  let prec := verbPrec wid.2.1 wid.2.2
  let last := if prec.2.2.1 then (prec.2.1, false) else ((argNumber prec.2.1).1, (argNumber prec.2.1).2.2)
  let verb := verbEnd last.1 (idx.2.2 || prec.2.2.2 || last.2)
  (wid.1 ++ prec.1 ++ verb.1, verb.2)

/-- The loop of `doPrintf`: text up to a `%` is copied, a verb is handled by
`doVerb`.  Every round consumes a character, so the fuel given by `Sprintf` (the
length of the format) never runs out. -/
def doPrintf : Nat → List Char → List Char
  | 0, _ => []
  | _ + 1, [] => []
  | n + 1, c :: s =>
    if c = '%' then (doVerb s).1 ++ doPrintf n (doVerb s).2 else c :: doPrintf n s

/-- The call `fmt.Sprintf(format)`, without operands. -/
def Sprintf (format : String) : String :=
  ⟨doPrintf format.data.length format.data⟩

/-! ## Templates -/

/-- A parsed `text/template`, restricted to the actions in `confirm.go`. -/
inductive Template where
  /-- Literal text (after the trim markers have removed their white space). -/
  | text (s : String)
  /-- A field action such as `.Message`. -/
  | field (name : String)
  /-- The call `color "style"` of the style function table. -/
  | color (style : String)
  /-- Two templates, one after the other. -/
  | seq (a b : Template)
  /-- The action `if .name` with its two branches. -/
  | cond (name : String) (thenT elseT : Template)
deriving Repr

/-- The struct `Confirm`: a regular text input that accepts yes/no answers. -/
structure Confirm where
  Message : String
  Default : Bool
deriving DecidableEq, Repr

/-- The struct `confirmTemplateData`: the data available to the templates; it
embeds `Confirm`. -/
structure confirmTemplateData extends Confirm where
  Answer : String
deriving DecidableEq, Repr

/-- The values of type `interface` that `confirm.go` hands to `core.RunTemplate`. -/
inductive TemplateData where
  | confirm (d : confirmTemplateData)
  | error (e : Error)
deriving DecidableEq, Repr

/-- The variable `confirmQuestionTemplate`.  Each action that opens with the trim
marker eats the white space before it, so the line breaks and the indentation of the
source text are all gone; the text left is `"? "` and the space after the message. -/
def confirmQuestionTemplate : Template :=
  .seq (.color "green+hb") <| .seq (.text "? ") <| .seq (.color "reset") <|
  .seq (.color "default+hb") <| .seq (.field "Message") <| .seq (.text " ") <|
  .seq (.color "reset") <|
  .cond "Answer"
    (.seq (.color "cyan") <| .seq (.field "Answer") (.color "reset"))
    (.seq (.color "white") <|
      .seq (.cond "Default" (.text "(Y/n) ") (.text "(y/N) ")) (.color "reset"))

/-- A value that a field action yields. -/
inductive Value where
  | str (s : String)
  | bool (b : Bool)
deriving DecidableEq, Repr

/-- Field and method lookup by name, as the template engine does by reflection. -/
def TemplateData.lookup : TemplateData → String → Option Value
  | .confirm d, name =>
    if name = "Message" then some (.str d.Message)
    else if name = "Default" then some (.bool d.Default)
    else if name = "Answer" then some (.str d.Answer)
    else none
  | .error e, name => if name = "Error" then some (.str e.msg) else none

/-- The text printed for a value. -/
def Value.print : Value → String
  | .str s => s
  | .bool b => if b then "true" else "false"

/-- The truth of a value in an `if`: a string is true when it is not empty. -/
def Value.truth : Value → Bool
  | .str s => s != ""
  | .bool b => b

/-- Modelled from the spec: `core.RunTemplate` is not under src/.  By the spec the
renderer is a pure, deterministic function of the template and its data: literal
text is copied, a field reference is replaced by the field, a styling directive is
an opaque text substitution resolved through the function table `color`, and an
undefined field signals a template error. -/
def execTemplate (color : String → String) (data : TemplateData) :
    Template → Except Error String
  | .text s => .ok s
  | .field name =>
    match data.lookup name with
    | some v => .ok v.print
    | none => .error ⟨"template: can't evaluate field " ++ name⟩
  | .color style => .ok (color style)
  | .seq a b =>
    match execTemplate color data a with
    | .error e => .error e
    | .ok x =>
      match execTemplate color data b with
      | .error e => .error e
      | .ok y => .ok (x ++ y)
  | .cond name thenT elseT =>
    match data.lookup name with
    | none => .error ⟨"template: can't evaluate field " ++ name⟩
    | some v => if v.truth then execTemplate color data thenT else execTemplate color data elseT

/-! ## The collaborators of `confirm.go` -/

/-- What `confirm.go` uses and does not define. -/
structure Env where
  /-- The function `core.RunTemplate(tmpl, data)`, with its two results. -/
  RunTemplate : Template → TemplateData → String × Option Error
  /-- The package variable `errorTemplate`. -/
  errorTemplate : Template
  /-- The verb `%q` of `fmt.Errorf` on a string (that is `strconv.Quote`). -/
  Quote : String → String

/-- An effect on the line editor or on the terminal. -/
inductive Event where
  /-- The call `rl.SetPrompt(s)`. -/
  | SetPrompt (s : String)
  /-- A call `rl.Readline()` together with what it returned. -/
  | Readline (val : String) (err : Option Error)
  /-- The call `ansi.Print(s)`. -/
  | Print (s : String)
  /-- The call `ansi.Println(s)`. -/
  | Println (s : String)
  /-- The call `ansi.CursorPreviousLine(n)`. -/
  | CursorPreviousLine (n : Nat)
  /-- The call `ansi.EraseInLine(n)`. -/
  | EraseInLine (n : Nat)
deriving DecidableEq, Repr

/-- The line editor and the terminal: the outcomes that the coming `Readline` calls
will have, the prompt now set on the editor, and every effect so far, oldest first. -/
structure World where
  pending : List (String × Option Error)
  prompt : String
  trace : List Event
deriving DecidableEq, Repr

/-- Record an effect. -/
def World.emit (w : World) (e : Event) : World :=
  { w with trace := w.trace ++ [e] }

/-- The call `rl.Readline()`: the next scripted outcome; once the script is used up
the input is closed and the call fails with `io.EOF`. -/
def Readline (w : World) : (String × Option Error) × World :=
  match w.pending with
  | [] => (("", some EOF), w.emit (.Readline "" (some EOF)))
  | r :: rest => (r, { w with pending := rest }.emit (.Readline r.1 r.2))

/-- The call `rl.SetPrompt(s)`. -/
def SetPrompt (s : String) (w : World) : World :=
  { w with prompt := s }.emit (.SetPrompt s)

/-- The call `fmt.Errorf("%q is not a valid answer, please try again.", val)`. -/
def invalidAnswer (env : Env) (val : String) : Error :=
  ⟨env.Quote val ++ " is not a valid answer, please try again."⟩

/-! ## `confirm.go` -/

/-- The function `yesNo`. -/
def yesNo (t : Bool) : String :=
  if t then "Yes" else "No"

/-- The method `(*Confirm).getBool`: the two results and the world left behind. -/
def getBool (env : Env) (c : Confirm) (w : World) : (Bool × Option Error) × World :=
  -- start waiting for input
  match h : Readline w with
  -- if something went wrong, use the default value and bubble up
  | ((_, some err), w1) => ((c.Default, some err), w1)
  | ((val, none), w1) =>
    if yesRx.Match val then ((true, none), w1)
    else if noRx.Match val then ((false, none), w1)
    else if val = "" then ((c.Default, none), w1)
    else
      -- we did not get a valid answer, so print error and prompt again
      match env.RunTemplate env.errorTemplate (.error (invalidAnswer env val)) with
      | (_, some err) => ((c.Default, some err), w1)
      | (out, none) =>
        -- send the message to the user
        match getBool env c (w1.emit (.Print out)) with
        | ((_, some err), w2) => ((c.Default, some err), w2)
        | ((answer, none), w2) => ((answer, none), w2)
termination_by w.pending.length
decreasing_by
  unfold Readline at h
  split at h
  · simp [EOF] at h
  · next r rest hp =>
    simp only [Prod.mk.injEq] at h
    rw [← h.2, hp]
    simp [World.emit]

/-- The method `(*Confirm).Prompt`. -/
def Prompt (env : Env) (c : Confirm) (w : World) : (String × Option Error) × World :=
  -- render the question template
  match env.RunTemplate confirmQuestionTemplate (.confirm { toConfirm := c, Answer := "" }) with
  | (_, some err) => (("", some err), w)
  | (out, none) =>
    -- use the result of the template as the prompt for the readline instance
    match getBool env c (SetPrompt (Sprintf out) w) with
    | ((_, some err), w1) => (("", some err), w1)
    -- convert the boolean into the appropriate string
    | ((answer, none), w1) => ((yesNo answer, none), w1)

/-- The method `(*Confirm).Cleanup`. -/
def Cleanup (env : Env) (c : Confirm) (val : String) (w : World) : Option Error × World :=
  -- go up one line, clear the line
  let w1 := (w.emit (.CursorPreviousLine 1)).emit (.EraseInLine 1)
  -- render the template
  match env.RunTemplate confirmQuestionTemplate (.confirm { toConfirm := c, Answer := val }) with
  | (_, some err) => (some err, w1)
  -- print the summary
  | (out, none) => (none, w1.emit (.Println out))

/-! ## Worked environment -/

/-- A style function table for the worked examples: the style name in angle
brackets stands for its escape sequence. -/
def tagColor (style : String) : String :=
  "<" ++ style ++ ">"

/-- A hexadecimal digit, in lower case. -/
def hexDigit (n : Nat) : Char :=
  if n < 10 then Char.ofNat (48 + n) else Char.ofNat (87 + n)

/-- The function `unicode.IsPrint` on the runes up to U+00FF: the ASCII runes from
the space to `~`, and the Latin-1 runes from U+00A1 on but for the soft hyphen.
Later runes are taken as printable, which the letters and signs among them are. -/
def isPrint (r : Char) : Bool :=
  if r.toNat ≤ 0xFF then
    (0x20 ≤ r.toNat && r.toNat < 0x7F) || (0xA1 ≤ r.toNat && r.toNat != 0xAD)
  else true

/-- One rune as `strconv.Quote` writes it: the double quote and the backslash get a
backslash; a printable rune stands for itself; the control characters with a short
escape get it; the other ASCII control characters are written `\xhh`, and the other
runes without a print form `\u00hh`. -/
def quoteRune (r : Char) : List Char :=
  if r = '"' || r = '\\' then ['\\', r]
  else if isPrint r then [r]
  else if r.toNat = 7 then ['\\', 'a']
  else if r.toNat = 8 then ['\\', 'b']
  else if r.toNat = 12 then ['\\', 'f']
  else if r.toNat = 10 then ['\\', 'n']
  else if r.toNat = 13 then ['\\', 'r']
  else if r.toNat = 9 then ['\\', 't']
  else if r.toNat = 11 then ['\\', 'v']
  else if r.toNat < 0x20 || r.toNat = 0x7F then
    ['\\', 'x', hexDigit (r.toNat / 16), hexDigit (r.toNat % 16)]
  else ['\\', 'u', '0', '0', hexDigit (r.toNat / 16), hexDigit (r.toNat % 16)]

/-- The verb `%q` on a string, that is `strconv.Quote`: the runes, each as
`quoteRune` writes it, between double quotes. -/
def quoteGo (s : String) : String :=
  ⟨'"' :: (s.data.flatMap quoteRune ++ ['"'])⟩

/-- Modelled from the spec: the variable `errorTemplate` is declared outside src/.
By the spec it renders a single-line diagnostic, the message of the error it is
given, styled as an error. -/
def specErrorTemplate : Template :=
  .seq (.color "red") <| .seq (.field "Error") <| .seq (.color "reset") (.text "\n")

/-- The collaborators in which the templates are run by `execTemplate`. -/
def modelEnv : Env where
  RunTemplate t d :=
    match execTemplate tagColor d t with
    | .ok out => (out, none)
    | .error e => ("", some e)
  errorTemplate := specErrorTemplate
  Quote := quoteGo

/-- Collaborators whose template engine fails on every template. -/
def brokenEnv : Env where
  RunTemplate _ _ := ("", some ⟨"template: execution failed"⟩)
  errorTemplate := specErrorTemplate
  Quote := quoteGo

/-- The collaborators whose template engine is `execTemplate` with the style
function table `color`. -/
def engineEnv (color : String → String) : Env where
  RunTemplate t d :=
    match execTemplate color d t with
    | .ok out => (out, none)
    | .error e => ("", some e)
  errorTemplate := specErrorTemplate
  Quote := quoteGo

/-- A style function table of SGR escape sequences, `ESC [ parameters m`, in the
manner of `ansi.ColorCode`.  A terminal shows no cell for such a sequence, whatever
its parameters are. -/
def sgrColor (style : String) : String :=
  if style = "reset" then "\x1b[0m"
  else if style = "green+hb" then "\x1b[1;92m"
  else if style = "default+hb" then "\x1b[1;99m"
  else if style = "cyan" then "\x1b[36m"
  else if style = "white" then "\x1b[37m"
  else if style = "red" then "\x1b[31m"
  else ""

/-! ## The terminal -/

/-- An ANSI terminal: the rows of cells it shows, and the row and column of the
cursor (counted from 0). -/
structure Screen where
  rows : List (List Char)
  row : Nat
  col : Nat
deriving DecidableEq, Repr

/-- A row after a character was written into the cell at the column `col`. -/
def putCell (line : List Char) (col : Nat) (ch : Char) : List Char :=
  line.take col ++ List.replicate (col - line.length) ' ' ++ ch :: line.drop (col + 1)

/-- A row after the control sequence `ESC [ n K` (erase in line) with the cursor at
the column `col`: `n = 0` blanks the cells from the cursor to the end of the row,
`n = 1` the cells from the beginning of the row up to the cursor, the cell of the
cursor included, and `n = 2` the entire row. -/
def eraseCells (n : Nat) (line : List Char) (col : Nat) : List Char :=
  if n = 0 then line.take col ++ List.replicate (line.length - col) ' '
  else if n = 1 then List.replicate (min (col + 1) line.length) ' ' ++ line.drop (col + 1)
  else if n = 2 then List.replicate line.length ' '
  else line

/-- The row on which the cursor is. -/
def Screen.line (s : Screen) : List Char :=
  s.rows.getD s.row []

/-- Text sent to the terminal.  A newline moves the cursor to the beginning of the
next row; an escape sequence takes no cell (`esc` is 1 after `ESC`, 2 inside a
control sequence, which ends with a character from `@` to `~`); any other character
is written into the cell of the cursor, which moves one column on. -/
def Screen.write : Nat → List Char → Screen → Screen
  | _, [], s => s
  | 0, ch :: rest, s =>
    if ch = Char.ofNat 27 then Screen.write 1 rest s
    else if ch = '\n' then Screen.write 0 rest { s with row := s.row + 1, col := 0 }
    else
      Screen.write 0 rest
        { s with rows := s.rows.set s.row (putCell s.line s.col ch), col := s.col + 1 }
  | 1, ch :: rest, s => if ch = '[' then Screen.write 2 rest s else Screen.write 0 rest s
  | _ + 2, ch :: rest, s =>
    if 0x40 ≤ ch.toNat && ch.toNat ≤ 0x7E then Screen.write 0 rest s
    else Screen.write 2 rest s

/-- What an effect does to the screen.  `ansi.CursorPreviousLine(n)` writes
`ESC [ n F`: the cursor goes to the beginning of the row `n` rows up.
`ansi.EraseInLine(n)` writes `ESC [ n K`.  `ansi.Print` and `ansi.Println` write
their text, the latter with a newline.  What the line editor draws is not modelled:
it is part of the screen one starts from. -/
def Screen.apply (s : Screen) : Event → Screen
  | .CursorPreviousLine n => { s with row := s.row - n, col := 0 }
  | .EraseInLine n => { s with rows := s.rows.set s.row (eraseCells n s.line s.col) }
  | .Print text => Screen.write 0 text.data s
  | .Println text => Screen.write 0 (text.data ++ ['\n']) s
  | .SetPrompt _ => s
  | .Readline _ _ => s

/-- The screen after a run of effects. -/
def Screen.run (s : Screen) (events : List Event) : Screen :=
  events.foldl Screen.apply s

/-- The world after one `Readline` call that returned `r`. -/
def World.afterRead (w : World) (r : String × Option Error)
    (rest : List (String × Option Error)) : World :=
  { w with pending := rest, trace := w.trace ++ [.Readline r.1 r.2] }

/-- The diagnostic that `getBool` prints for a rejected line. -/
def diagnostic (env : Env) (val : String) : String :=
  (env.RunTemplate env.errorTemplate (.error (invalidAnswer env val))).1

/-- The error, if any, of rendering the diagnostic for a rejected line. -/
def diagnosticErr (env : Env) (val : String) : Option Error :=
  (env.RunTemplate env.errorTemplate (.error (invalidAnswer env val))).2

/-- The texts that `yesRx` matches, rune by rune. -/
def yesForm : List Char → Prop
  | [x] => x = 'y' ∨ x = 'Y'
  | [x, y, z] => (x = 'y' ∨ x = 'Y') ∧ (y = 'e' ∨ y = 'E') ∧ (z = 's' ∨ z = 'ſ' ∨ z = 'S')
  | _ => False

/-- The texts that `noRx` matches, rune by rune. -/
def noForm : List Char → Prop
  | [x] => x = 'n' ∨ x = 'N'
  | [x, y] => (x = 'n' ∨ x = 'N') ∧ (y = 'o' ∨ y = 'O')
  | _ => False

/-- Every line on which `getBool` returns an answer: the empty line and the lines
that `yesRx` or `noRx` matches.  The last four spell `yes` with U+017F, the long s. -/
def acceptedLines : List String :=
  ["", "y", "Y", "n", "N", "no", "nO", "No", "NO",
   "yes", "yeS", "yEs", "yES", "Yes", "YeS", "YEs", "YES",
   "yeſ", "yEſ", "Yeſ", "YEſ"]

/-- The acceptance rule in the words of the specification: the line is empty or
equals one of `y`, `yes`, `n`, `no` up to letter case (`A`–`Z` against `a`–`z`). -/
def specAccepted (line : String) : Bool :=
  line == "" || ["y", "yes", "n", "no"].contains line.toLower

/-- The switch of `getBool` reaches a return on this line, not its `default` case. -/
def accepted (val : String) : Bool :=
  yesRx.Match val || noRx.Match val || val == ""

/-- The trace of a run of rejected lines: each line is read, then its diagnostic is
printed, before the next line is read. -/
def rejections (env : Env) (invalids : List String) : List Event :=
  invalids.flatMap fun x => [.Readline x none, .Print (diagnostic env x)]

/-- The rendering of the question template for a `Confirm` and an answer, as
`Prompt` (empty answer) and `Cleanup` ask for it. -/
def renderQuestion (color : String → String) (c : Confirm) (answer : String) :
    Except Error String :=
  execTemplate color (.confirm { toConfirm := c, Answer := answer }) confirmQuestionTemplate

/-- The opening of every rendering of the question: the styled glyph `? `, then the
styled message and a space. -/
def questionLead (color : String → String) (message : String) : String :=
  (color "green+hb" ++ "? " ++ color "reset") ++
    (color "default+hb" ++ message ++ " " ++ color "reset")

/-! ## `Sprintf` -/

theorem parsenum_length (s : List Char) :
    ∀ (num : Nat) (isnum : Bool), (parsenum num isnum s).2.length ≤ s.length := by
  induction s with
  | nil => intro num isnum; simp [parsenum]
  | cons c s ih =>
    intro num isnum
    unfold parsenum
    split_ifs
    · simp
    · exact Nat.le_succ_of_le (ih _ _)
    · simp

theorem dropWhile_length (p : Char → Bool) (s : List Char) :
    (s.dropWhile p).length ≤ s.length :=
  (List.dropWhile_sublist p).length_le

theorem argNumber_length (s : List Char) : (argNumber s).1.length ≤ s.length := by
  unfold argNumber
  split
  · next body =>
    split_ifs
    · simp
    · split
      · simp
      · next x rest h =>
        have := dropWhile_length (fun c => c != ']') body
        rw [h] at this
        simp at this ⊢
        omega
  · simp

theorem verbWidth_length (s : List Char) (afterIndex : Bool) :
    (verbWidth s afterIndex).2.1.length ≤ s.length := by
  unfold verbWidth
  split
  · simp
  · exact parsenum_length s 0 false

theorem verbPrec_length (s : List Char) (afterIndex : Bool) :
    (verbPrec s afterIndex).2.1.length ≤ s.length := by
  unfold verbPrec
  split
  · next c t =>
    have h1 := argNumber_length (c :: t)
    split
    · next t2 h =>
      rw [h] at h1
      simp only [List.length_cons] at h1 ⊢
      omega
    · have h2 := parsenum_length (argNumber (c :: t)).1 0 false
      simp only [List.length_cons] at h1 ⊢
      omega
  · simp

theorem verbEnd_length (s : List Char) (bad : Bool) :
    (verbEnd s bad).2.length ≤ s.length := by
  unfold verbEnd
  split
  · simp
  · split_ifs <;> simp

theorem doVerb_length (s : List Char) : (doVerb s).2.length ≤ s.length := by
  have h1 := dropWhile_length isFlag s
  have h2 := argNumber_length (s.dropWhile isFlag)
  have h3 := verbWidth_length (argNumber (s.dropWhile isFlag)).1
    (argNumber (s.dropWhile isFlag)).2.1
  generalize hw : verbWidth (argNumber (s.dropWhile isFlag)).1
    (argNumber (s.dropWhile isFlag)).2.1 = wid at h3
  have h4 := verbPrec_length wid.2.1 wid.2.2
  generalize hp : verbPrec wid.2.1 wid.2.2 = prec at h4
  have h5 := argNumber_length prec.2.1
  unfold doVerb
  simp only [hw, hp]
  split_ifs
  · exact le_trans (verbEnd_length _ _) (by simp only; omega)
  · exact le_trans (verbEnd_length _ _) (by simp only; omega)

/-- The fuel that `Sprintf` gives to `doPrintf` is enough: more fuel changes nothing. -/
theorem doPrintf_fuel (n : Nat) : ∀ (s : List Char) (m : Nat), s.length ≤ n → n ≤ m →
    doPrintf m s = doPrintf n s := by
  induction n with
  | zero =>
    intro s m hs _
    have : s = [] := List.length_eq_zero.mp (Nat.le_zero.mp hs)
    subst this
    cases m <;> simp [doPrintf]
  | succ n ih =>
    intro s m hs hm
    obtain ⟨m, rfl⟩ : ∃ k, m = k + 1 := ⟨m - 1, by omega⟩
    cases s with
    | nil => simp [doPrintf]
    | cons c s =>
      simp only [List.length_cons, Nat.add_le_add_iff_right] at hs hm
      unfold doPrintf
      split_ifs
      · rw [ih _ m (le_trans (doVerb_length s) hs) hm, ih _ n (le_trans (doVerb_length s) hs) le_rfl]
      · rw [ih _ m hs hm, ih _ n hs le_rfl]

theorem doPrintf_no_percent (s : List Char) (h : '%' ∉ s) : doPrintf s.length s = s := by
  induction s with
  | nil => simp [doPrintf]
  | cons c s ih =>
    simp only [List.mem_cons, not_or] at h
    simp only [List.length_cons, doPrintf]
    rw [if_neg (fun hc => h.1 hc.symm), ih h.2]

/-- A format without a percent sign is returned as it is. -/
theorem Sprintf_no_percent (format : String) (h : '%' ∉ format.data) :
    Sprintf format = format := by
  unfold Sprintf
  rw [doPrintf_no_percent _ h]

/-! ## Unfolding `getBool` -/

theorem Readline_cons (w : World) (r : String × Option Error)
    (rest : List (String × Option Error)) (hp : w.pending = r :: rest) :
    Readline w = (r, w.afterRead r rest) := by
  simp [Readline, hp, World.afterRead, World.emit]

theorem Readline_nil (w : World) (hp : w.pending = []) :
    Readline w = (("", some EOF), w.afterRead ("", some EOF) []) := by
  cases w
  simp_all [Readline, World.afterRead, World.emit]

/-- The body of `getBool` after its `Readline` call returned `(val, nil)`. -/
theorem getBool_line (env : Env) (c : Confirm) (w : World) (val : String)
    (rest : List (String × Option Error)) (hp : w.pending = (val, none) :: rest) :
    getBool env c w =
      if yesRx.Match val then ((true, none), w.afterRead (val, none) rest)
      else if noRx.Match val then ((false, none), w.afterRead (val, none) rest)
      else if val = "" then ((c.Default, none), w.afterRead (val, none) rest)
      else
        match env.RunTemplate env.errorTemplate (.error (invalidAnswer env val)) with
        | (_, some err) => ((c.Default, some err), w.afterRead (val, none) rest)
        | (out, none) =>
          match getBool env c ((w.afterRead (val, none) rest).emit (.Print out)) with
          | ((_, some err), w2) => ((c.Default, some err), w2)
          | ((answer, none), w2) => ((answer, none), w2) := by
  rw [getBool]
  split
  · next v err w1 h =>
    rw [Readline_cons w _ rest hp] at h
    simp at h
  · next v w1 h =>
    rw [Readline_cons w _ rest hp] at h
    simp only [Prod.mk.injEq] at h
    obtain ⟨⟨h1, -⟩, h3⟩ := h
    subst h1 h3
    rfl

theorem getBool_readErr (env : Env) (c : Confirm) (w : World) (val : String) (e : Error)
    (rest : List (String × Option Error)) (hp : w.pending = (val, some e) :: rest) :
    getBool env c w = ((c.Default, some e), w.afterRead (val, some e) rest) := by
  rw [getBool]
  split
  · next v err w1 h =>
    rw [Readline_cons w _ rest hp] at h
    simp only [Prod.mk.injEq] at h
    obtain ⟨⟨-, h2⟩, h3⟩ := h
    simp [← h2, ← h3]
  · next v w1 h =>
    rw [Readline_cons w _ rest hp] at h
    simp at h

theorem getBool_closed (env : Env) (c : Confirm) (w : World) (hp : w.pending = []) :
    getBool env c w = ((c.Default, some EOF), w.afterRead ("", some EOF) []) := by
  rw [getBool]
  split
  · next v err w1 h =>
    rw [Readline_nil w hp] at h
    simp only [Prod.mk.injEq] at h
    obtain ⟨⟨-, h2⟩, h3⟩ := h
    simp [← h2, ← h3]
  · next v w1 h =>
    rw [Readline_nil w hp] at h
    simp at h

/-- An error from `getBool` always comes with the default value. -/
theorem getBool_err_default (env : Env) (c : Confirm) :
    ∀ (n : Nat) (w : World), w.pending.length = n → ∀ b e w1,
      getBool env c w = ((b, some e), w1) → b = c.Default := by
  intro n
  induction n with
  | zero =>
    intro w hn b e w1 h
    have hp : w.pending = [] := List.length_eq_zero.mp hn
    rw [getBool_closed env c w hp] at h
    simp only [Prod.mk.injEq] at h
    exact h.1.1.symm
  | succ n ih =>
    intro w hn b e w1 h
    obtain ⟨r, rest, hp⟩ : ∃ r rest, w.pending = r :: rest := by
      cases hw : w.pending with
      | nil => simp [hw] at hn
      | cons r rest => exact ⟨r, rest, rfl⟩
    obtain ⟨val, err⟩ := r
    cases err with
    | some e0 =>
      rw [getBool_readErr env c w val e0 rest hp] at h
      simp only [Prod.mk.injEq] at h
      exact h.1.1.symm
    | none =>
      rw [getBool_line env c w val rest hp] at h
      split_ifs at h
      · simp at h
      · simp at h
      · simp at h
      · split at h
        · simp only [Prod.mk.injEq] at h
          exact h.1.1.symm
        · split at h
          · simp only [Prod.mk.injEq] at h
            exact h.1.1.symm
          · simp at h

/-- A retry is a plain call of `getBool` on the world after the diagnostic. -/
theorem getBool_retry_eq (env : Env) (c : Confirm) (w : World) :
    (match getBool env c w with
      | ((_, some err), w2) => ((c.Default, some err), w2)
      | ((answer, none), w2) => ((answer, none), w2)) = getBool env c w := by
  split
  · next b err w2 h =>
    rw [h, getBool_err_default env c _ w rfl b err w2 h]
  · next b w2 h => rw [h]

/-! ## The two patterns -/

theorem search_anchored (re : Regexp) (s : List Char) :
    (Regexp.concat .beginText re).search false s = false := by
  induction s with
  | nil => simp [Regexp.search, Regexp.run]
  | cons a t ih => simp [Regexp.search, Regexp.run, ih]

theorem Match_anchored (re : Regexp) (b : String) :
    (Regexp.concat .beginText re).Match b = !(re.run (true, b.data)).isEmpty := by
  unfold Regexp.Match
  cases b.data with
  | nil => simp [Regexp.search, Regexp.run]
  | cons a t => simp [Regexp.search, Regexp.run, search_anchored]

theorem matchRune_y (a : Char) : matchRune 'y' true a = true ↔ a = 'y' ∨ a = 'Y' := by
  have h : foldOrbit 'y' 4 (SimpleFold 'y') = ['Y'] := by decide
  simp [matchRune, h]

theorem matchRune_e (a : Char) : matchRune 'e' true a = true ↔ a = 'e' ∨ a = 'E' := by
  have h : foldOrbit 'e' 4 (SimpleFold 'e') = ['E'] := by decide
  simp [matchRune, h]

theorem matchRune_s (a : Char) :
    matchRune 's' true a = true ↔ a = 's' ∨ a = 'ſ' ∨ a = 'S' := by
  have h : foldOrbit 's' 4 (SimpleFold 's') = ['ſ', 'S'] := by decide
  simp [matchRune, h]

theorem matchRune_n (a : Char) : matchRune 'n' true a = true ↔ a = 'n' ∨ a = 'N' := by
  have h : foldOrbit 'n' 4 (SimpleFold 'n') = ['N'] := by decide
  simp [matchRune, h]

theorem matchRune_o (a : Char) : matchRune 'o' true a = true ↔ a = 'o' ∨ a = 'O' := by
  have h : foldOrbit 'o' 4 (SimpleFold 'o') = ['O'] := by decide
  simp [matchRune, h]

theorem yesRx_data (b : String) : yesRx.Match b = true ↔ yesForm b.data := by
  unfold yesRx
  rw [Match_anchored]
  rcases b.data with _ | ⟨x, _ | ⟨y, _ | ⟨z, _ | ⟨u, t⟩⟩⟩⟩ <;>
    simp only [Regexp.run, List.flatMap_cons, List.flatMap_nil, List.append_nil,
      List.nil_append, List.cons_append] <;>
    (try split_ifs) <;>
    simp_all [matchRune_y, matchRune_e, matchRune_s, Regexp.run, yesForm]

theorem noRx_data (b : String) : noRx.Match b = true ↔ noForm b.data := by
  unfold noRx
  rw [Match_anchored]
  rcases b.data with _ | ⟨x, _ | ⟨y, _ | ⟨z, t⟩⟩⟩ <;>
    simp only [Regexp.run, List.flatMap_cons, List.flatMap_nil, List.append_nil,
      List.nil_append, List.cons_append] <;>
    (try split_ifs) <;>
    simp_all [matchRune_n, matchRune_o, Regexp.run, noForm]
  tauto

theorem acceptedLines_accepted : ∀ val ∈ acceptedLines, accepted val = true := by
  decide

theorem accepted_mem (val : String) (h : accepted val = true) : val ∈ acceptedLines := by
  obtain ⟨data⟩ := val
  simp only [accepted, Bool.or_eq_true, yesRx_data, noRx_data, beq_iff_eq] at h
  rcases h with (h | h) | h
  · rcases data with _ | ⟨x, _ | ⟨y, _ | ⟨z, _ | ⟨u, t⟩⟩⟩⟩ <;> simp only [yesForm] at h
    · rcases h with rfl | rfl <;> decide
    · obtain ⟨rfl | rfl, rfl | rfl, rfl | rfl | rfl⟩ := h
      all_goals decide
  · rcases data with _ | ⟨x, _ | ⟨y, _ | ⟨z, t⟩⟩⟩ <;> simp only [noForm] at h
    · rcases h with rfl | rfl <;> decide
    · obtain ⟨rfl | rfl, rfl | rfl⟩ := h
      all_goals decide
  · rw [h]; decide

theorem accepted_iff (val : String) : accepted val = true ↔ val ∈ acceptedLines :=
  ⟨accepted_mem val, acceptedLines_accepted val⟩

theorem yesRx_noRx_disjoint (val : String) (hn : noRx.Match val = true) :
    yesRx.Match val = false := by
  have h := (noRx_data val).mp hn
  rw [Bool.eq_false_iff, ne_eq, yesRx_data]
  generalize val.data = d at h ⊢
  rcases d with _ | ⟨x, _ | ⟨y, _ | ⟨z, _ | ⟨u, t⟩⟩⟩⟩ <;> simp only [noForm] at h <;>
    simp only [yesForm, not_false_eq_true]
  rcases h with rfl | rfl <;> decide

theorem accepted_false (val : String) (he : val ≠ "") (hy : yesRx.Match val = false)
    (hn : noRx.Match val = false) : accepted val = false := by
  simp [accepted, hy, hn, he]

/-! ## Retrying -/

/-- On a rejected line whose diagnostic renders, `getBool` prints the diagnostic
and its result is that of the recursive call. -/
theorem getBool_invalid (env : Env) (c : Confirm) (w : World) (val : String)
    (rest : List (String × Option Error)) (hp : w.pending = (val, none) :: rest)
    (hacc : accepted val = false) (hr : diagnosticErr env val = none) :
    getBool env c w =
      getBool env c ((w.afterRead (val, none) rest).emit (.Print (diagnostic env val))) := by
  rw [getBool_line env c w val rest hp]
  simp only [accepted, Bool.or_eq_false_iff, beq_eq_false_iff_ne, ne_eq] at hacc
  obtain ⟨⟨hy, hn⟩, he⟩ := hacc
  simp only [hy, hn, he, Bool.false_eq_true, if_false]
  unfold diagnosticErr at hr
  unfold diagnostic
  generalize env.RunTemplate env.errorTemplate (.error (invalidAnswer env val)) = r at hr ⊢
  obtain ⟨out, err⟩ := r
  simp only at hr
  subst hr
  exact getBool_retry_eq env c _

/-- On a rejected line whose diagnostic fails to render, `getBool` returns the
default value and the error of the render, and prints nothing. -/
theorem getBool_invalid_renderErr (env : Env) (c : Confirm) (w : World) (val : String)
    (rest : List (String × Option Error)) (hp : w.pending = (val, none) :: rest)
    (hacc : accepted val = false) (e : Error) (hr : diagnosticErr env val = some e) :
    getBool env c w = ((c.Default, some e), w.afterRead (val, none) rest) := by
  rw [getBool_line env c w val rest hp]
  simp only [accepted, Bool.or_eq_false_iff, beq_eq_false_iff_ne, ne_eq] at hacc
  obtain ⟨⟨hy, hn⟩, he⟩ := hacc
  simp only [hy, hn, he, Bool.false_eq_true, if_false]
  unfold diagnosticErr at hr
  generalize env.RunTemplate env.errorTemplate (.error (invalidAnswer env val)) = r at hr ⊢
  obtain ⟨out, err⟩ := r
  simp only at hr
  subst hr
  rfl

/-- On an accepted line `getBool` returns its answer after the one read. -/
theorem getBool_accepted (env : Env) (c : Confirm) (w : World) (val : String)
    (rest : List (String × Option Error)) (hp : w.pending = (val, none) :: rest)
    (hacc : accepted val = true) :
    getBool env c w =
      ((if yesRx.Match val then true else if noRx.Match val then false else c.Default, none),
        w.afterRead (val, none) rest) := by
  rw [getBool_line env c w val rest hp]
  by_cases hy : yesRx.Match val = true
  · simp [hy]
  · by_cases hn : noRx.Match val = true
    · simp [hy, hn]
    · have he : val = "" := by simpa [accepted, hy, hn] using hacc
      subst he
      simp [hy, hn]

/-- After the rejected lines, `getBool` goes on as if called afresh. -/
theorem getBool_skip (env : Env) (c : Confirm) (invalids : List String) :
    ∀ (w : World) (tail : List (String × Option Error)),
      w.pending = invalids.map (fun x => (x, none)) ++ tail →
      (∀ x ∈ invalids, accepted x = false) →
      (∀ x ∈ invalids, diagnosticErr env x = none) →
      getBool env c w =
        getBool env c
          { pending := tail, prompt := w.prompt, trace := w.trace ++ rejections env invalids } := by
  induction invalids with
  | nil =>
    intro w tail hp _ _
    simp only [List.map_nil, List.nil_append] at hp
    simp [rejections, ← hp]
  | cons x xs ih =>
    intro w tail hp hacc hr
    rw [getBool_invalid env c w x (xs.map (fun x => (x, none)) ++ tail) (by simpa using hp)
      (hacc x (List.mem_cons_self _ _)) (hr x (List.mem_cons_self _ _))]
    rw [ih _ tail (by simp [World.emit, World.afterRead])
      (fun y hy => hacc y (List.mem_cons_of_mem _ hy))
      (fun y hy => hr y (List.mem_cons_of_mem _ hy))]
    simp [World.emit, World.afterRead, rejections]

/-- Where an error returned by `getBool` comes from: the last thing `getBool` did
was a `Readline` call, and either that call failed with the error, or it returned a
rejected line whose diagnostic failed to render with the error. -/
theorem getBool_err_origin (env : Env) (c : Confirm) :
    ∀ (n : Nat) (w : World), w.pending.length = n → ∀ b e w1,
      getBool env c w = ((b, some e), w1) →
      (∃ val, w1.trace.getLast? = some (.Readline val (some e))) ∨
      (∃ x, w1.trace.getLast? = some (.Readline x none) ∧ accepted x = false ∧
        diagnosticErr env x = some e) := by
  intro n
  induction n with
  | zero =>
    intro w hn b e w1 h
    have hp : w.pending = [] := List.length_eq_zero.mp hn
    rw [getBool_closed env c w hp] at h
    simp only [Prod.mk.injEq, Option.some.injEq] at h
    obtain ⟨⟨-, rfl⟩, rfl⟩ := h
    exact Or.inl ⟨"", by simp [World.afterRead]⟩
  | succ n ih =>
    intro w hn b e w1 h
    obtain ⟨r, rest, hp⟩ : ∃ r rest, w.pending = r :: rest := by
      cases hw : w.pending with
      | nil => simp [hw] at hn
      | cons r rest => exact ⟨r, rest, rfl⟩
    obtain ⟨val, err⟩ := r
    cases err with
    | some e0 =>
      rw [getBool_readErr env c w val e0 rest hp] at h
      simp only [Prod.mk.injEq, Option.some.injEq] at h
      obtain ⟨⟨-, rfl⟩, rfl⟩ := h
      exact Or.inl ⟨val, by simp [World.afterRead]⟩
    | none =>
      cases hacc : accepted val with
      | true =>
        rw [getBool_accepted env c w val rest hp hacc] at h
        simp at h
      | false =>
        cases hr : diagnosticErr env val with
        | some e1 =>
          rw [getBool_invalid_renderErr env c w val rest hp hacc e1 hr] at h
          simp only [Prod.mk.injEq, Option.some.injEq] at h
          obtain ⟨⟨-, rfl⟩, rfl⟩ := h
          exact Or.inr ⟨val, by simp [World.afterRead], hacc, hr⟩
        | none =>
          rw [getBool_invalid env c w val rest hp hacc hr] at h
          refine ih _ ?_ b e w1 h
          rw [hp] at hn
          simpa [World.emit, World.afterRead] using hn

theorem Prompt_rendered (env : Env) (c : Confirm) (w : World) (out : String)
    (hq : env.RunTemplate confirmQuestionTemplate (.confirm { toConfirm := c, Answer := "" }) =
      (out, none)) :
    Prompt env c w =
      match getBool env c (SetPrompt (Sprintf out) w) with
      | ((_, some err), w1) => (("", some err), w1)
      | ((answer, none), w1) => ((yesNo answer, none), w1) := by
  simp only [Prompt, hq]

theorem modelEnv_question :
    modelEnv.RunTemplate confirmQuestionTemplate
        (.confirm { toConfirm := ⟨"Continue?", true⟩, Answer := "" }) =
      ("<green+hb>? <reset><default+hb>Continue? <reset><white>(Y/n) <reset>", none) := by
  decide

/-! ## The claims about `getBool` -/

/-- C1. When the first line read is matched by `yesRx`, that is by
`^(?i:y(?:es)?)$`, `getBool` returns `(true, nil)` whatever `c.Default` is.  The
world it leaves has lost exactly that line of the pending input and gained exactly
that `Readline` event: the rest of the stream is unread and nothing was written. -/
theorem getBool_yes (env : Env) (c : Confirm) (w : World) (val : String)
    (rest : List (String × Option Error)) (hp : w.pending = (val, none) :: rest)
    (hy : yesRx.Match val = true) :
    getBool env c w =
      ((true, none),
        { pending := rest, prompt := w.prompt, trace := w.trace ++ [Event.Readline val none] }) := by
  rw [getBool_line env c w val rest hp]
  simp [hy, World.afterRead]

theorem getBool_yes_witness :
    yesRx.Match "YeS" = true ∧
    getBool modelEnv ⟨"Continue?", false⟩ ⟨[("YeS", none), ("no", none)], "", []⟩ =
      ((true, none), ⟨[("no", none)], "", [Event.Readline "YeS" none]⟩) :=
  ⟨by decide, getBool_yes modelEnv _ _ "YeS" [("no", none)] rfl (by decide)⟩

/-- C2. When the first line read is matched by `noRx`, that is by
`^(?i:n(?:o)?)$`, `getBool` returns `(false, nil)` whatever `c.Default` is, after
that one read and without writing anything. -/
theorem getBool_no (env : Env) (c : Confirm) (w : World) (val : String)
    (rest : List (String × Option Error)) (hp : w.pending = (val, none) :: rest)
    (hn : noRx.Match val = true) :
    getBool env c w =
      ((false, none),
        { pending := rest, prompt := w.prompt, trace := w.trace ++ [Event.Readline val none] }) := by
  rw [getBool_line env c w val rest hp]
  simp [hn, yesRx_noRx_disjoint val hn, World.afterRead]

theorem getBool_no_witness :
    noRx.Match "nO" = true ∧
    getBool modelEnv ⟨"Continue?", true⟩ ⟨[("nO", none), ("yes", none)], "", []⟩ =
      ((false, none), ⟨[("yes", none)], "", [Event.Readline "nO" none]⟩) :=
  ⟨by decide, getBool_no modelEnv _ _ "nO" [("yes", none)] rfl (by decide)⟩

/-- C3. When the first line read is the empty string, `getBool` returns
`(c.Default, nil)`, so `(true, nil)` for `Default = true` and `(false, nil)` for
`Default = false`, after that one read and without writing anything. -/
theorem getBool_empty (env : Env) (c : Confirm) (w : World)
    (rest : List (String × Option Error)) (hp : w.pending = ("", none) :: rest) :
    getBool env c w =
      ((c.Default, none),
        { pending := rest, prompt := w.prompt, trace := w.trace ++ [Event.Readline "" none] }) ∧
    (c.Default = true → (getBool env c w).1 = (true, none)) ∧
    (c.Default = false → (getBool env c w).1 = (false, none)) := by
  have hy : yesRx.Match "" = false := by decide
  have hn : noRx.Match "" = false := by decide
  have h : getBool env c w = ((c.Default, none), w.afterRead ("", none) rest) := by
    rw [getBool_line env c w "" rest hp]
    simp [hy, hn]
  refine ⟨by rw [h]; rfl, fun hd => by rw [h, hd], fun hd => by rw [h, hd]⟩

theorem getBool_empty_witness :
    getBool modelEnv ⟨"Continue?", true⟩ ⟨[("", none), ("no", none)], "", []⟩ =
      ((true, none), ⟨[("no", none)], "", [Event.Readline "" none]⟩) :=
  (getBool_empty modelEnv ⟨"Continue?", true⟩ ⟨[("", none), ("no", none)], "", []⟩
    [("no", none)] rfl).1

/-- C4. Let the stream hold `k` invalid lines (each one not empty and matched by
neither pattern) followed by a valid line `v`, and let the error template render for
each invalid line.  Then `getBool` returns on none of the invalid lines; it returns
`(answer of v, nil)`, and the trace it adds is, for each invalid line in the order
read, the read of the line and then the print of its diagnostic, and last the read
of `v`: exactly `k` diagnostics, each before the next read, and exactly `k + 1`
reads, with the rest of the stream unread. -/
theorem getBool_retries (env : Env) (c : Confirm) (w : World) (invalids : List String)
    (v : String) (rest : List (String × Option Error))
    (hp : w.pending = invalids.map (fun x => (x, none)) ++ (v, none) :: rest)
    (hinv : ∀ x ∈ invalids, x ≠ "" ∧ yesRx.Match x = false ∧ noRx.Match x = false)
    (hrender : ∀ x ∈ invalids,
      (env.RunTemplate env.errorTemplate (.error (invalidAnswer env x))).2 = none)
    (hv : yesRx.Match v = true ∨ noRx.Match v = true ∨ v = "") :
    getBool env c w =
      ((if yesRx.Match v then true else if noRx.Match v then false else c.Default, none),
        { pending := rest, prompt := w.prompt,
          trace := w.trace ++
            invalids.flatMap (fun x => [Event.Readline x none, Event.Print (diagnostic env x)]) ++
            [Event.Readline v none] }) ∧
    ((invalids.flatMap (fun x =>
        [Event.Readline x none, Event.Print (diagnostic env x)])).filter
      (fun ev => match ev with | .Print _ => true | _ => false)).length = invalids.length := by
  constructor
  · rw [getBool_skip env c invalids w _ hp
      (fun x hx => accepted_false x (hinv x hx).1 (hinv x hx).2.1 (hinv x hx).2.2) hrender]
    rw [getBool_accepted env c _ v rest rfl (by
      rcases hv with h | h | h <;> simp [accepted, h])]
    simp [World.afterRead, rejections]
  · clear hp hinv hrender
    induction invalids with
    | nil => rfl
    | cons x xs ih => simpa [List.flatMap_cons, List.filter_cons] using ih

theorem getBool_retries_witness :
    ((∀ x ∈ ["maybe"], x ≠ "" ∧ yesRx.Match x = false ∧ noRx.Match x = false) ∧
      yesRx.Match "Y" = true) ∧
    getBool modelEnv ⟨"Continue?", false⟩ ⟨[("maybe", none), ("Y", none)], "", []⟩ =
      ((true, none), ⟨[], "",
        [Event.Readline "maybe" none,
         Event.Print "<red>\"maybe\" is not a valid answer, please try again.<reset>\n",
         Event.Readline "Y" none]⟩) ∧
    Prompt modelEnv ⟨"Continue?", false⟩ ⟨[("xyz", none), ("no", none)], "", []⟩ =
      (("No", none),
        ⟨[], "<green+hb>? <reset><default+hb>Continue? <reset><white>(y/N) <reset>",
          [Event.SetPrompt "<green+hb>? <reset><default+hb>Continue? <reset><white>(y/N) <reset>",
           Event.Readline "xyz" none,
           Event.Print "<red>\"xyz\" is not a valid answer, please try again.<reset>\n",
           Event.Readline "no" none]⟩) := by
  refine ⟨⟨by decide, by decide⟩,
    (getBool_retries modelEnv ⟨"Continue?", false⟩ ⟨[("maybe", none), ("Y", none)], "", []⟩
      ["maybe"] "Y" [] rfl (by decide) (by decide) (Or.inl (by decide))).1, ?_⟩
  have hq : modelEnv.RunTemplate confirmQuestionTemplate
      (.confirm { toConfirm := ⟨"Continue?", false⟩, Answer := "" }) =
      ("<green+hb>? <reset><default+hb>Continue? <reset><white>(y/N) <reset>", none) := by
    decide
  have hs : Sprintf "<green+hb>? <reset><default+hb>Continue? <reset><white>(y/N) <reset>" =
      "<green+hb>? <reset><default+hb>Continue? <reset><white>(y/N) <reset>" := by decide
  rw [Prompt_rendered modelEnv _ _ _ hq, hs,
    (getBool_retries modelEnv ⟨"Continue?", false⟩
      (SetPrompt "<green+hb>? <reset><default+hb>Continue? <reset><white>(y/N) <reset>"
        ⟨[("xyz", none), ("no", none)], "", []⟩)
      ["xyz"] "no" [] rfl (by decide) (by decide) (Or.inr (Or.inl (by decide)))).1]
  decide

/-- C5. When a `Readline` call fails with error `e`, on the first read or after any
number of rejected invalid lines whose diagnostics rendered, `getBool` returns
`(c.Default, e)`: the failed read is the last event of the trace (no further read,
no diagnostic for the failure) and the stream behind it is unread; a stream that
has run out fails with `io.EOF` in the same way.  And whenever `getBool` returns an
error that is not nil, the boolean is `c.Default` and the error is that of a failed
read or of a failed render of the error template. -/
theorem getBool_readFailure (env : Env) (c : Confirm) (w : World) (invalids : List String)
    (val : String) (e : Error) (rest : List (String × Option Error))
    (hp : w.pending = invalids.map (fun x => (x, none)) ++ (val, some e) :: rest)
    (hinv : ∀ x ∈ invalids, x ≠ "" ∧ yesRx.Match x = false ∧ noRx.Match x = false)
    (hrender : ∀ x ∈ invalids,
      (env.RunTemplate env.errorTemplate (.error (invalidAnswer env x))).2 = none) :
    getBool env c w =
      ((c.Default, some e),
        { pending := rest, prompt := w.prompt,
          trace := w.trace ++
            invalids.flatMap (fun x => [Event.Readline x none, Event.Print (diagnostic env x)]) ++
            [Event.Readline val (some e)] }) ∧
    (∀ w0 : World, w0.pending = invalids.map (fun x => (x, none)) →
      getBool env c w0 =
        ((c.Default, some EOF),
          { pending := [], prompt := w0.prompt,
            trace := w0.trace ++
              invalids.flatMap (fun x => [Event.Readline x none, Event.Print (diagnostic env x)]) ++
              [Event.Readline "" (some EOF)] })) ∧
    (∀ (w0 : World) (b : Bool) (e0 : Error) (w1 : World),
      getBool env c w0 = ((b, some e0), w1) →
      b = c.Default ∧
      ((∃ line, w1.trace.getLast? = some (Event.Readline line (some e0))) ∨
       (∃ x, w1.trace.getLast? = some (Event.Readline x none) ∧
          (x ≠ "" ∧ yesRx.Match x = false ∧ noRx.Match x = false) ∧
          (env.RunTemplate env.errorTemplate (.error (invalidAnswer env x))).2 = some e0))) := by
  have hacc : ∀ x ∈ invalids, accepted x = false := fun x hx =>
    accepted_false x (hinv x hx).1 (hinv x hx).2.1 (hinv x hx).2.2
  refine ⟨?_, ?_, ?_⟩
  · rw [getBool_skip env c invalids w _ hp hacc hrender]
    rw [getBool_readErr env c _ val e rest rfl]
    simp [World.afterRead, rejections]
  · intro w0 hp0
    rw [getBool_skip env c invalids w0 [] (by simpa using hp0) hacc hrender]
    rw [getBool_closed env c _ rfl]
    simp [World.afterRead, rejections]
  · intro w0 b e0 w1 h
    refine ⟨getBool_err_default env c _ w0 rfl b e0 w1 h, ?_⟩
    rcases getBool_err_origin env c _ w0 rfl b e0 w1 h with h1 | ⟨x, h1, h2, h3⟩
    · exact Or.inl h1
    · refine Or.inr ⟨x, h1, ?_, h3⟩
      simpa [accepted, and_assoc, and_comm, and_left_comm] using h2

theorem getBool_readFailure_witness :
    (∀ x ∈ ["maybe"], x ≠ "" ∧ yesRx.Match x = false ∧ noRx.Match x = false) ∧
    getBool modelEnv ⟨"Continue?", true⟩
        ⟨[("maybe", none), ("", some ⟨"Interrupt"⟩), ("no", none)], "", []⟩ =
      ((true, some ⟨"Interrupt"⟩), ⟨[("no", none)], "",
        [Event.Readline "maybe" none,
         Event.Print "<red>\"maybe\" is not a valid answer, please try again.<reset>\n",
         Event.Readline "" (some ⟨"Interrupt"⟩)]⟩) :=
  ⟨by decide,
    (getBool_readFailure modelEnv ⟨"Continue?", true⟩
      ⟨[("maybe", none), ("", some ⟨"Interrupt"⟩), ("no", none)], "", []⟩
      ["maybe"] "" ⟨"Interrupt"⟩ [("no", none)] rfl (by decide) (by decide)).1⟩

/-! ## `Prompt` and `Cleanup` -/

/-- C7. The result of `Prompt` is determined by that of `getBool`.  If the question
template fails to render with error `e`, `Prompt` returns `("", e)` and does nothing.
Otherwise it sets the prompt and calls `getBool`: from `(b, nil)` it returns
`("Yes", nil)` when `b` is true and `("No", nil)` when `b` is false; from an error
`e` it returns `("", e)`, the empty string and not a word for `c.Default`.  So with
`Default = true` an empty first line gives `("Yes", nil)`, and a stream that is closed
at once gives `("", io.EOF)`. -/
theorem Prompt_result (env : Env) (c : Confirm) (w : World) :
    (∀ out e,
      env.RunTemplate confirmQuestionTemplate (.confirm { toConfirm := c, Answer := "" }) =
        (out, some e) →
      Prompt env c w = (("", some e), w)) ∧
    (∀ out,
      env.RunTemplate confirmQuestionTemplate (.confirm { toConfirm := c, Answer := "" }) =
        (out, none) →
      (∀ b w1, getBool env c (SetPrompt (Sprintf out) w) = ((b, none), w1) →
        Prompt env c w = ((if b then "Yes" else "No", none), w1)) ∧
      (∀ b e w1, getBool env c (SetPrompt (Sprintf out) w) = ((b, some e), w1) →
        Prompt env c w = (("", some e), w1)) ∧
      (∀ rest, c.Default = true → w.pending = ("", none) :: rest →
        (Prompt env c w).1 = ("Yes", none)) ∧
      (c.Default = true → w.pending = [] → (Prompt env c w).1 = ("", some EOF))) := by
  refine ⟨fun out e hq => by simp only [Prompt, hq], fun out hq => ⟨?_, ?_, ?_, ?_⟩⟩
  · intro b w1 h
    rw [Prompt_rendered env c w out hq, h]
    rfl
  · intro b e w1 h
    rw [Prompt_rendered env c w out hq, h]
  · intro rest hd hp
    rw [Prompt_rendered env c w out hq,
      getBool_accepted env c (SetPrompt (Sprintf out) w) "" rest
        (by simpa [SetPrompt, World.emit] using hp) (by decide), hd]
    rfl
  · intro _ hp
    rw [Prompt_rendered env c w out hq,
      getBool_closed env c (SetPrompt (Sprintf out) w) (by simpa [SetPrompt, World.emit] using hp)]

theorem Prompt_result_witness :
    (Prompt modelEnv ⟨"Continue?", true⟩ ⟨[("", none)], "", []⟩).1 = ("Yes", none) ∧
    (Prompt modelEnv ⟨"Continue?", true⟩ ⟨[], "", []⟩).1 = ("", some EOF) ∧
    Prompt brokenEnv ⟨"Continue?", true⟩ ⟨[("yes", none)], "", []⟩ =
      (("", some ⟨"template: execution failed"⟩), ⟨[("yes", none)], "", []⟩) :=
  ⟨((Prompt_result modelEnv ⟨"Continue?", true⟩ ⟨[("", none)], "", []⟩).2 _
      modelEnv_question).2.2.1 [] rfl rfl,
    ((Prompt_result modelEnv ⟨"Continue?", true⟩ ⟨[], "", []⟩).2 _
      modelEnv_question).2.2.2 rfl rfl,
    (Prompt_result brokenEnv ⟨"Continue?", true⟩ ⟨[("yes", none)], "", []⟩).1 _ _ rfl⟩

/-- What `getBool` leaves of the world: it only appends to the trace, it never
touches the prompt, and no event it appends is a `SetPrompt`. -/
theorem getBool_trace_extends (env : Env) (c : Confirm) :
    ∀ (n : Nat) (w : World), w.pending.length = n →
      ∃ t, (getBool env c w).2.trace = w.trace ++ t ∧
        (getBool env c w).2.prompt = w.prompt ∧ ∀ s, Event.SetPrompt s ∉ t := by
  intro n
  induction n with
  | zero =>
    intro w hn
    rw [getBool_closed env c w (List.length_eq_zero.mp hn)]
    exact ⟨_, rfl, rfl, by simp⟩
  | succ n ih =>
    intro w hn
    obtain ⟨r, rest, hp⟩ : ∃ r rest, w.pending = r :: rest := by
      cases hw : w.pending with
      | nil => simp [hw] at hn
      | cons r rest => exact ⟨r, rest, rfl⟩
    obtain ⟨val, err⟩ := r
    cases err with
    | some e0 =>
      rw [getBool_readErr env c w val e0 rest hp]
      exact ⟨_, rfl, rfl, by simp⟩
    | none =>
      cases hacc : accepted val with
      | true =>
        rw [getBool_accepted env c w val rest hp hacc]
        exact ⟨_, rfl, rfl, by simp⟩
      | false =>
        cases hr : diagnosticErr env val with
        | some e1 =>
          rw [getBool_invalid_renderErr env c w val rest hp hacc e1 hr]
          exact ⟨_, rfl, rfl, by simp⟩
        | none =>
          rw [getBool_invalid env c w val rest hp hacc hr]
          obtain ⟨t, ht, hpr, hno⟩ := ih ((w.afterRead (val, none) rest).emit
            (.Print (diagnostic env val))) (by
              rw [hp] at hn
              simpa [World.emit, World.afterRead] using hn)
          refine ⟨[.Readline val none, .Print (diagnostic env val)] ++ t, ?_, ?_, ?_⟩
          · rw [ht]
            simp [World.emit, World.afterRead]
          · rw [hpr]
            rfl
          · intro s
            simpa using hno s

/-- What `Prompt` does to the line editor once the question has rendered to `out`:
its first effect is `SetPrompt (Sprintf out)`, before any read; nothing after it
sets the prompt again, so the prompt stays the same through every retry; and the
prompt left on the editor is `Sprintf out`. -/
theorem Prompt_sets_prompt (env : Env) (c : Confirm) (w : World) (out : String)
    (hq : env.RunTemplate confirmQuestionTemplate (.confirm { toConfirm := c, Answer := "" }) =
      (out, none)) :
    ∃ t, (Prompt env c w).2.trace = w.trace ++ Event.SetPrompt (Sprintf out) :: t ∧
      (∀ s, Event.SetPrompt s ∉ t) ∧ (Prompt env c w).2.prompt = Sprintf out := by
  obtain ⟨t, ht, hpr, hno⟩ := getBool_trace_extends env c _ (SetPrompt (Sprintf out) w) rfl
  rw [Prompt_rendered env c w out hq]
  generalize getBool env c (SetPrompt (Sprintf out) w) = r at ht hpr
  obtain ⟨⟨b, err⟩, w1⟩ := r
  refine ⟨t, ?_, hno, ?_⟩
  · cases err <;> simpa [SetPrompt, World.emit] using ht
  · cases err <;> simpa [SetPrompt, World.emit] using hpr

theorem renderQuestion_eq (color : String → String) (c : Confirm) (answer : String) :
    renderQuestion color c answer =
      .ok (questionLead color c.Message ++
        (if answer = "" then
          color "white" ++ (if c.Default then "(Y/n) " else "(y/N) ") ++ color "reset"
        else color "cyan" ++ answer ++ color "reset")) := by
  by_cases ha : answer = "" <;> cases hd : c.Default <;>
    simp [renderQuestion, confirmQuestionTemplate, execTemplate, TemplateData.lookup,
      Value.print, Value.truth, questionLead, ha, hd, String.append_assoc]

/-- The effects of `Cleanup`, for any collaborators: it moves the cursor up one
line and then calls `EraseInLine(1)`, each once; it then renders the question
template with `Answer = val`; when the render succeeds it writes the rendered text
with a newline, once, and returns nil; its guard returns the error of a failed
render before the write.  It reads no input, and what it returns is in every case
the error result of the render. -/
theorem Cleanup_effects (env : Env) (c : Confirm) (val : String) (w : World) :
    (∀ out,
      env.RunTemplate confirmQuestionTemplate (.confirm { toConfirm := c, Answer := val }) =
        (out, none) →
      Cleanup env c val w =
        (none, { pending := w.pending, prompt := w.prompt,
                 trace := w.trace ++
                   [Event.CursorPreviousLine 1, Event.EraseInLine 1, Event.Println out] })) ∧
    (∀ out e,
      env.RunTemplate confirmQuestionTemplate (.confirm { toConfirm := c, Answer := val }) =
        (out, some e) →
      Cleanup env c val w =
        (some e, { pending := w.pending, prompt := w.prompt,
                   trace := w.trace ++ [Event.CursorPreviousLine 1, Event.EraseInLine 1] })) ∧
    (Cleanup env c val w).2.pending = w.pending ∧
    (Cleanup env c val w).1 =
      (env.RunTemplate confirmQuestionTemplate
        (.confirm { toConfirm := c, Answer := val })).2 := by
  refine ⟨fun out h => ?_, fun out e h => ?_, ?_, ?_⟩
  · simp [Cleanup, h, World.emit]
  · simp [Cleanup, h, World.emit]
  · unfold Cleanup
    split <;> rfl
  · unfold Cleanup
    split <;> simp_all

/-- With the template engine `execTemplate` the question template renders for every
style table, `Confirm` and final value, so `Cleanup` always performs its three
effects in order, each once, reads nothing and returns nil. -/
theorem Cleanup_engine (color : String → String) (c : Confirm) (val : String) (w : World) :
    ∃ out, renderQuestion color c val = .ok out ∧
      Cleanup (engineEnv color) c val w =
        (none, { pending := w.pending, prompt := w.prompt,
                 trace := w.trace ++
                   [Event.CursorPreviousLine 1, Event.EraseInLine 1, Event.Println out] }) := by
  refine ⟨_, renderQuestion_eq color c val, ?_⟩
  have h := renderQuestion_eq color c val
  unfold renderQuestion at h
  simp [Cleanup, engineEnv, h, World.emit]

/-- C8, at the failing input.  The live line shows `? Continue? (Y/n) yes` and the
cursor is on the row below it.  `Cleanup` with the final value `Yes` performs the
effects `CursorPreviousLine(1)`, `EraseInLine(1)`, `Println(rendered text)`, in this
order and each once, and returns nil.  On the terminal `EraseInLine(1)` blanks the
cells from the beginning of the row up to the cursor, which is at the beginning: the
line is not erased, and after the write the row shows `? Continue? Yesn) yes`.  With
`EraseInLine(2)` in its place the row would show the finalized line alone. -/
theorem Cleanup_leaves_old_line :
    Cleanup (engineEnv sgrColor) ⟨"Continue?", true⟩ "Yes" ⟨[], "", []⟩ =
      (none, ⟨[], "",
        [Event.CursorPreviousLine 1, Event.EraseInLine 1,
         Event.Println "\x1b[1;92m? \x1b[0m\x1b[1;99mContinue? \x1b[0m\x1b[36mYes\x1b[0m"]⟩) ∧
    Screen.run ⟨["? Continue? (Y/n) yes".data, []], 1, 0⟩
        (Cleanup (engineEnv sgrColor) ⟨"Continue?", true⟩ "Yes" ⟨[], "", []⟩).2.trace =
      ⟨["? Continue? Yesn) yes".data, []], 1, 0⟩ ∧
    Screen.run ⟨["? Continue? (Y/n) yes".data, []], 1, 0⟩
        [Event.CursorPreviousLine 1, Event.EraseInLine 2,
         Event.Println "\x1b[1;92m? \x1b[0m\x1b[1;99mContinue? \x1b[0m\x1b[36mYes\x1b[0m"] =
      ⟨["? Continue? Yes      ".data, []], 1, 0⟩ := by
  have h : Cleanup (engineEnv sgrColor) ⟨"Continue?", true⟩ "Yes" ⟨[], "", []⟩ =
      (none, ⟨[], "",
        [Event.CursorPreviousLine 1, Event.EraseInLine 1,
         Event.Println "\x1b[1;92m? \x1b[0m\x1b[1;99mContinue? \x1b[0m\x1b[36mYes\x1b[0m"]⟩) := by
    decide
  refine ⟨h, ?_, by decide⟩
  rw [h]
  decide

/-- C10, at the failing input.  For the message `Delete 100% of files?` the question
template renders the message as it is, yet the prompt that `Prompt` sets on the line
editor, before the first read, is another text: `fmt.Sprintf` took the rendered text
for a format and rewrote `% o` into `%!o(MISSING)`. -/
theorem Prompt_percent_mangled :
    modelEnv.RunTemplate confirmQuestionTemplate
        (.confirm { toConfirm := ⟨"Delete 100% of files?", false⟩, Answer := "" }) =
      ("<green+hb>? <reset><default+hb>Delete 100% of files? <reset><white>(y/N) <reset>",
        none) ∧
    Prompt modelEnv ⟨"Delete 100% of files?", false⟩ ⟨[("y", none)], "", []⟩ =
      (("Yes", none),
        ⟨[], "<green+hb>? <reset><default+hb>Delete 100%!o(MISSING)f files? <reset><white>(y/N) <reset>",
          [Event.SetPrompt
            "<green+hb>? <reset><default+hb>Delete 100%!o(MISSING)f files? <reset><white>(y/N) <reset>",
           Event.Readline "y" none]⟩) := by
  have hq : modelEnv.RunTemplate confirmQuestionTemplate
      (.confirm { toConfirm := ⟨"Delete 100% of files?", false⟩, Answer := "" }) =
      ("<green+hb>? <reset><default+hb>Delete 100% of files? <reset><white>(y/N) <reset>",
        none) := by decide
  refine ⟨hq, ?_⟩
  rw [Prompt_rendered modelEnv _ _ _ hq]
  have hs : Sprintf
      "<green+hb>? <reset><default+hb>Delete 100% of files? <reset><white>(y/N) <reset>" =
      "<green+hb>? <reset><default+hb>Delete 100%!o(MISSING)f files? <reset><white>(y/N) <reset>" := by
    decide
  rw [hs, getBool_accepted modelEnv _ _ "y" [] rfl (by decide)]
  decide

/-! ## The question template -/

/-- C9. For every message, default and answer, the rendering of the question
template is the lead (styled glyph `? `, styled message, a space), which does not
depend on the answer, followed by the answer region: for an empty answer the hint
`(Y/n) ` when `Default` is true and `(y/N) ` when it is false, in style `white`; for
an answer that is not empty the answer itself in style `cyan`, and no hint.  So the
renderings for the answers `""` and `"Yes"` share the lead and differ in the region
only; every rendering ends with the style reset; and when the style codes hold no
newline, every newline of a rendering lies in the message or in the answer. -/
theorem question_render (color : String → String) (c : Confirm) (answer : String) :
    (answer = "" →
      renderQuestion color c answer =
        .ok (questionLead color c.Message ++
          (color "white" ++ (if c.Default then "(Y/n) " else "(y/N) ") ++ color "reset"))) ∧
    (answer ≠ "" →
      renderQuestion color c answer =
        .ok (questionLead color c.Message ++ (color "cyan" ++ answer ++ color "reset"))) ∧
    (∃ hint,
      renderQuestion color c "" = .ok (questionLead color c.Message ++ hint) ∧
      renderQuestion color c "Yes" =
        .ok (questionLead color c.Message ++ (color "cyan" ++ "Yes" ++ color "reset"))) ∧
    (∃ body, renderQuestion color c answer = .ok (body ++ color "reset")) ∧
    ((∀ style ∈ ["green+hb", "reset", "default+hb", "cyan", "white"],
        '\n' ∉ (color style).data) →
      ∃ p1 p2 p3,
        renderQuestion color c answer = .ok (p1 ++ c.Message ++ p2 ++ answer ++ p3) ∧
        '\n' ∉ p1.data ∧ '\n' ∉ p2.data ∧ '\n' ∉ p3.data) := by
  refine ⟨fun ha => ?_, fun ha => ?_,
    ⟨color "white" ++ (if c.Default then "(Y/n) " else "(y/N) ") ++ color "reset", ?_, ?_⟩,
    ?_, fun hc => ?_⟩
  · rw [renderQuestion_eq, if_pos ha]
  · rw [renderQuestion_eq, if_neg ha]
  · rw [renderQuestion_eq, if_pos rfl]
  · rw [renderQuestion_eq, if_neg (by decide)]
  · rw [renderQuestion_eq]
    by_cases ha : answer = ""
    · exact ⟨questionLead color c.Message ++
        (color "white" ++ (if c.Default then "(Y/n) " else "(y/N) ")), by
          simp [ha, String.append_assoc]⟩
    · exact ⟨questionLead color c.Message ++ (color "cyan" ++ answer), by
        simp [ha, String.append_assoc]⟩
  · have h1 := hc "green+hb" (by simp)
    have h2 := hc "reset" (by simp)
    have h3 := hc "default+hb" (by simp)
    have h4 := hc "cyan" (by simp)
    have h5 := hc "white" (by simp)
    rw [renderQuestion_eq]
    by_cases ha : answer = ""
    · refine ⟨color "green+hb" ++ "? " ++ color "reset" ++ color "default+hb",
        " " ++ color "reset" ++ color "white" ++ (if c.Default then "(Y/n) " else "(y/N) "),
        color "reset", ?_, ?_, ?_, h2⟩
      · simp [ha, questionLead, String.append_assoc]
      · simp [String.data_append, h1, h2, h3]
      · cases c.Default <;> simp [String.data_append, h2, h5]
    · refine ⟨color "green+hb" ++ "? " ++ color "reset" ++ color "default+hb",
        " " ++ color "reset" ++ color "cyan", color "reset", ?_, ?_, ?_, h2⟩
      · simp [ha, questionLead, String.append_assoc]
      · simp [String.data_append, h1, h2, h3]
      · simp [String.data_append, h2, h4]

theorem question_render_witness :
    (∀ style ∈ ["green+hb", "reset", "default+hb", "cyan", "white"],
      '\n' ∉ (tagColor style).data) ∧
    renderQuestion tagColor ⟨"Continue?", true⟩ "" =
      .ok "<green+hb>? <reset><default+hb>Continue? <reset><white>(Y/n) <reset>" ∧
    renderQuestion tagColor ⟨"Continue?", true⟩ "Yes" =
      .ok "<green+hb>? <reset><default+hb>Continue? <reset><cyan>Yes<reset>" ∧
    ∃ p1 p2 p3,
      renderQuestion tagColor ⟨"Continue?", true⟩ "Yes" =
        .ok (p1 ++ "Continue?" ++ p2 ++ "Yes" ++ p3) ∧
      '\n' ∉ p1.data ∧ '\n' ∉ p2.data ∧ '\n' ∉ p3.data :=
  ⟨by decide,
    (question_render tagColor ⟨"Continue?", true⟩ "").1 rfl,
    (question_render tagColor ⟨"Continue?", true⟩ "Yes").2.1 (by decide),
    (question_render tagColor ⟨"Continue?", true⟩ "Yes").2.2.2.2 (by decide)⟩

/-! ## The accepted lines -/

theorem upper_cases (c : Char) (h : c.toNat ≥ 65 ∧ c.toNat ≤ 90) :
    c ∈ ("ABCDEFGHIJKLMNOPQRSTUVWXYZ".data) := by
  have hc : c = Char.ofNat c.toNat := (Char.ofNat_toNat c).symm
  obtain ⟨h1, h2⟩ := h
  rw [hc]
  generalize c.toNat = n at h1 h2
  interval_cases n <;> decide

theorem toLower_eq_iff (c t : Char) (ht : t ∈ "yesno".data) :
    c.toLower = t ↔ c = t ∨ c = t.toUpper := by
  constructor
  · intro h
    unfold Char.toLower at h
    dsimp only at h
    split_ifs at h with hr
    · have hu := upper_cases c hr
      rw [← h]
      simp only [List.mem_cons, List.mem_singleton, List.not_mem_nil, or_false] at hu ht
      rcases hu with rfl | rfl | rfl | rfl | rfl | rfl | rfl | rfl | rfl | rfl | rfl | rfl | rfl |
        rfl | rfl | rfl | rfl | rfl | rfl | rfl | rfl | rfl | rfl | rfl | rfl | rfl <;>
      · subst h
        revert ht
        decide
    · exact Or.inl h
  · simp only [List.mem_cons, List.mem_singleton, List.not_mem_nil, or_false] at ht
    rcases ht with rfl | rfl | rfl | rfl | rfl <;> rintro (rfl | rfl) <;> decide

theorem toLower_cases (c t : Char) (ht : t ∈ "yesno".data) (h : c.toLower = t) :
    c = t ∨ c = t.toUpper :=
  (toLower_eq_iff c t ht).mp h

theorem specAccepted_mem (line : String) (h : specAccepted line = true) :
    line ∈ acceptedLines := by
  obtain ⟨data⟩ := line
  simp only [specAccepted, Bool.or_eq_true, beq_iff_eq, List.contains_eq_any_beq,
    List.any_eq_true, String.toLower, String.map_eq] at h
  rcases h with h | ⟨word, hw, h⟩
  · rw [h]; decide
  · simp only [List.mem_cons, List.mem_singleton, List.not_mem_nil, or_false] at hw
    have hd : data.map Char.toLower = word.data := by
      have := congrArg String.data h
      simpa using this
    clear h
    rcases hw with rfl | rfl | rfl | rfl
    · change _ = ['y'] at hd
      rcases data with _ | ⟨a, _ | ⟨b, t⟩⟩ <;> simp at hd
      rcases toLower_cases a _ (by decide) hd with rfl | rfl <;> decide
    · change _ = ['y', 'e', 's'] at hd
      rcases data with _ | ⟨a, _ | ⟨b, _ | ⟨c, _ | ⟨d, t⟩⟩⟩⟩ <;> simp at hd
      obtain ⟨ha, hb, hc⟩ := hd
      rcases toLower_cases a _ (by decide) ha with rfl | rfl <;>
        rcases toLower_cases b _ (by decide) hb with rfl | rfl <;>
        rcases toLower_cases c _ (by decide) hc with rfl | rfl <;> decide
    · change _ = ['n'] at hd
      rcases data with _ | ⟨a, _ | ⟨b, t⟩⟩ <;> simp at hd
      rcases toLower_cases a _ (by decide) hd with rfl | rfl <;> decide
    · change _ = ['n', 'o'] at hd
      rcases data with _ | ⟨a, _ | ⟨b, _ | ⟨c, t⟩⟩⟩ <;> simp at hd
      obtain ⟨ha, hb⟩ := hd
      rcases toLower_cases a _ (by decide) ha with rfl | rfl <;>
        rcases toLower_cases b _ (by decide) hb with rfl | rfl <;> decide

theorem specAccepted_eq (line : String) :
    specAccepted line =
      (line == "" || ["y", "yes", "n", "no"].contains ⟨line.data.map Char.toLower⟩) := by
  simp only [specAccepted, String.toLower, String.map_eq]

theorem acceptedLines_spec :
    ∀ line ∈ acceptedLines, specAccepted line = true ∨ line ∈ ["yeſ", "yEſ", "Yeſ", "YEſ"] := by
  simp only [specAccepted_eq]
  decide

theorem long_s_not_spec : specAccepted "yeſ" = false := by
  rw [specAccepted_eq]
  decide

theorem acceptedLines_no_space :
    ∀ line ∈ acceptedLines, ∀ ch ∈ line.data, ch.isWhitespace = false := by
  decide

/-- C6, counterexample.  The line `yeſ`, whose last rune is U+017F, is accepted at
once as a yes, although it is not the empty line and equals none of `y`, `yes`, `n`,
`no` up to letter case: the flag `(?i)` folds the long s with `s` and `S`.  And the
invalid line ` y` triggers neither a diagnostic nor a retry when the error template
fails to render: `getBool` returns the default and the error after the one read. -/
theorem getBool_accepts_long_s :
    getBool modelEnv ⟨"Continue?", false⟩ ⟨[("yeſ", none), ("no", none)], "", []⟩ =
      ((true, none), ⟨[("no", none)], "", [Event.Readline "yeſ" none]⟩) ∧
    specAccepted "yeſ" = false ∧
    getBool brokenEnv ⟨"Continue?", true⟩ ⟨[(" y", none), ("no", none)], "", []⟩ =
      ((true, some ⟨"template: execution failed"⟩),
        ⟨[("no", none)], "", [Event.Readline " y" none]⟩) :=
  ⟨getBool_accepted modelEnv _ _ "yeſ" [("no", none)] rfl (by decide), long_s_not_spec,
    getBool_invalid_renderErr brokenEnv _ _ " y" [("no", none)] rfl (by decide) _ rfl⟩

/-- C6, amended.  Matching is whole-string, case-insensitive in the sense of the flag
`(?i)`, and on the raw line.  A line is accepted by `getBool` without a retry (one
read, an answer, nothing written) if and only if it is in `acceptedLines`: the empty
line, the case mixtures of `y`, `yes`, `n`, `no`, and the four spellings of `yes`
with the long s U+017F; these are exactly the empty line and the lines that one of
the two patterns matches.  Every line equal to one of the four words up to letter
case is among them, and the four spellings with the long s are the only others.  No
line with a white space character in it is accepted, nor is any of ` y`, `yes `,
`y\n`, `yess`, `yeah`, `nope`; and on a line that is not accepted, when the error
template renders, `getBool` prints the diagnostic and retries. -/
theorem getBool_accepts_iff (env : Env) (c : Confirm) (w : World) (val : String)
    (rest : List (String × Option Error)) (hp : w.pending = (val, none) :: rest) :
    ((∃ b, getBool env c w =
        ((b, none),
          { pending := rest, prompt := w.prompt,
            trace := w.trace ++ [Event.Readline val none] })) ↔
      val ∈ acceptedLines) ∧
    (val ∈ acceptedLines ↔ (val = "" ∨ yesRx.Match val = true ∨ noRx.Match val = true)) ∧
    (val ∉ acceptedLines →
      (env.RunTemplate env.errorTemplate (.error (invalidAnswer env val))).2 = none →
      getBool env c w =
        getBool env c
          { pending := rest, prompt := w.prompt,
            trace := w.trace ++
              [Event.Readline val none, Event.Print (diagnostic env val)] }) ∧
    (∀ line : String, specAccepted line = true → line ∈ acceptedLines) ∧
    (∀ line ∈ acceptedLines,
      specAccepted line = true ∨ line ∈ ["yeſ", "yEſ", "Yeſ", "YEſ"]) ∧
    (∀ line : String, (∃ ch ∈ line.data, ch.isWhitespace = true) → line ∉ acceptedLines) ∧
    (∀ line ∈ [" y", "yes ", "y\n", "yess", "yeah", "nope"], line ∉ acceptedLines) := by
  refine ⟨⟨?_, ?_⟩, ?_, ?_, specAccepted_mem, acceptedLines_spec, ?_, by decide⟩
  · rintro ⟨b, h⟩
    cases hacc : accepted val with
    | true => exact accepted_mem val hacc
    | false =>
      exfalso
      cases hr : diagnosticErr env val with
      | some e1 =>
        rw [getBool_invalid_renderErr env c w val rest hp hacc e1 hr] at h
        simp at h
      | none =>
        rw [getBool_invalid env c w val rest hp hacc hr] at h
        obtain ⟨t, ht, -, -⟩ := getBool_trace_extends env c _
          ((w.afterRead (val, none) rest).emit (.Print (diagnostic env val))) rfl
        rw [h] at ht
        simp [World.emit, World.afterRead] at ht
  · intro hmem
    have hacc := acceptedLines_accepted val hmem
    exact ⟨_, by rw [getBool_accepted env c w val rest hp hacc]; rfl⟩
  · rw [← accepted_iff]
    simp only [accepted, Bool.or_eq_true, beq_iff_eq]
    tauto
  · intro hmem hr
    have hacc : accepted val = false := by
      rw [← accepted_iff] at hmem
      simpa using hmem
    rw [getBool_invalid env c w val rest hp hacc hr]
    simp [World.emit, World.afterRead]
  · rintro line ⟨ch, hch, hws⟩ hmem
    have := acceptedLines_no_space line hmem ch hch
    rw [this] at hws
    exact Bool.false_ne_true hws

theorem getBool_accepts_iff_witness :
    " y" ∉ acceptedLines ∧
    getBool modelEnv ⟨"Continue?", false⟩ ⟨[(" y", none), ("y", none)], "", []⟩ =
      getBool modelEnv ⟨"Continue?", false⟩
        ⟨[("y", none)], "",
          [Event.Readline " y" none,
           Event.Print "<red>\" y\" is not a valid answer, please try again.<reset>\n"]⟩ ∧
    ∃ b, getBool modelEnv ⟨"Continue?", false⟩ ⟨[("YES", none), ("y", none)], "", []⟩ =
      ((b, none), ⟨[("y", none)], "", [Event.Readline "YES" none]⟩) :=
  ⟨by decide,
    (getBool_accepts_iff modelEnv ⟨"Continue?", false⟩ ⟨[(" y", none), ("y", none)], "", []⟩
      " y" [("y", none)] rfl).2.2.1 (by decide) (by decide),
    (getBool_accepts_iff modelEnv ⟨"Continue?", false⟩ ⟨[("YES", none), ("y", none)], "", []⟩
      "YES" [("y", none)] rfl).1.mpr (by decide)⟩


end Survey
